import Mathlib

/-!
Verification of the juicyurls URL scanner (github.com/alwalxed/juicyurls).

Shallow embedding of the classification pipeline:
* main.go URLChecker.isSuspicious / compileRegexes / isValidURL / worker /
  processURLs / processFile / removeDuplicates (the first, most capable
  variant in main.go, which is what the claims cite);
* internal/checker/checker.go URLChecker.IsSuspicious / IsValidURL
  (the refactored variant, which drops the maximum-length guards).

Go regexp patterns are built as "(?i)" + regexp.QuoteMeta(pattern)
(and "+ $" for extensions), i.e. every compiled pattern is a
case-insensitive literal-substring (resp. literal-suffix) matcher, so we
embed pattern matching as case-insensitive substring / suffix tests.
Machine strings are Lean String; Go len(s) (byte length) is embedded as
the UTF-8 byte count goLen.
-/

set_option maxRecDepth 20000

namespace JuicyURLs

/-- maxURLLength constant (main.go line 23). -/
def maxURLLength : Nat := 2048

/-- maxWorkers constant (main.go line 27). -/
def maxWorkersConst : Int := 500

/-- ASCII lower-casing of one character, modelling the effect of the Go
regexp flag (?i) on the ASCII pattern data used by this program. -/
def lowerChar (c : Char) : Char :=
  if 65 ≤ c.toNat ∧ c.toNat ≤ 90 then Char.ofNat (c.toNat + 32) else c

/-- Lower-cased character list of a string. -/
def lowerChars (s : String) : List Char := s.data.map lowerChar

/-- Number of UTF-8 bytes of one character (Go byte-length contribution). -/
def charBytes (c : Char) : Nat :=
  if c.toNat < 128 then 1
  else if c.toNat < 2048 then 2
  else if c.toNat < 65536 then 3
  else 4

/-- UTF-8 byte length of a character list. -/
def goLenL : List Char → Nat
  | [] => 0
  | c :: cs => charBytes c + goLenL cs

/-- Go len(s): the UTF-8 byte length of a string. -/
def goLen (s : String) : Nat := goLenL s.data

/-- pat occurs as a contiguous sublist of l (Go regexp literal match /
strings.Contains on character lists). -/
def containsL (pat : List Char) : List Char → Bool
  | [] => pat.isEmpty
  | c :: rest => pat.isPrefixOf (c :: rest) || containsL pat rest

/-- Case-insensitive substring test: the compiled Go regex
(?i)QuoteMeta(pat) matches somewhere in s. -/
def ciContains (pat s : String) : Bool :=
  containsL (lowerChars pat) (lowerChars s)

/-- Case-insensitive suffix test: the compiled Go regex
(?i)QuoteMeta(pat)$ matches in s. -/
def ciEndsWith (pat s : String) : Bool :=
  (lowerChars pat).isSuffixOf (lowerChars s)

/-- Go strings.HasPrefix. -/
def strStarts (pre s : String) : Bool := pre.data.isPrefixOf s.data

/-- The four suspicious-pattern lists of the suspicious package
(Keywords, Extensions, Paths, Hidden).  They are plain package-level
string-slice data (the repository ships Extensions and Hidden; Keywords
and Paths live in files not present here, and the test file overwrites
all four with arbitrary values), so the embedding is parametric in them. -/
structure PatternEnv where
  keywords : List String
  extensions : List String
  paths : List String
  hidden : List String

/-- URLChecker configuration (main.go lines 32-44 / checker.go lines
13-25): the four category-enable flags and the exclusion patterns.
The compiled regex slices are produced by compileRegexes below. -/
structure URLChecker where
  checkKeywords : Bool
  checkExtensions : Bool
  checkPaths : Bool
  checkHidden : Bool
  excludePatterns : List String

/-- The compiled regex slices held by a URLChecker after compileRegexes. -/
structure CompiledChecker where
  excludeRegexes : List String
  keywordRegexes : List String
  extensionRegexes : List String
  pathRegexes : List String
  hiddenRegexes : List String

/-- compileRegexes (main.go lines 114-157, checker.go lines 67-110):
exclusion patterns are always compiled; each category list is compiled
only when its flag is set.  Every pattern is QuoteMeta-escaped, so
regexp.Compile never fails and no pattern is dropped. -/
def compileRegexes (env : PatternEnv) (c : URLChecker) : CompiledChecker :=
  { excludeRegexes := c.excludePatterns
    keywordRegexes := if c.checkKeywords = true then env.keywords else []
    extensionRegexes := if c.checkExtensions = true then env.extensions else []
    pathRegexes := if c.checkPaths = true then env.paths else []
    hiddenRegexes := if c.checkHidden = true then env.hidden else [] }

/-- The shared pattern-testing cascade of isSuspicious (main.go lines
167-199) and IsSuspicious (checker.go lines 118-150): exclusion first,
then keywords, extensions, paths, hidden, in that order. -/
def matchCategories (cc : CompiledChecker) (rawURL : String) : Bool × String × String :=
  if cc.excludeRegexes.any (fun p => ciContains p rawURL) then (false, "", "")
  else if cc.keywordRegexes.any (fun p => ciContains p rawURL) then
    (true, "keywords", "Contains suspicious keyword")
  else if cc.extensionRegexes.any (fun p => ciEndsWith p rawURL) then
    (true, "extensions", "Suspicious file extension")
  else if cc.pathRegexes.any (fun p => ciContains p rawURL) then
    (true, "paths", "Suspicious path pattern")
  else if cc.hiddenRegexes.any (fun p => ciContains p rawURL) then
    (true, "hidden", "Hidden file or directory")
  else (false, "", "")

/-- URLChecker.isSuspicious (main.go lines 160-200): empty or overlong
URLs are rejected up front, then the compiled patterns are tested. -/
def isSuspicious (env : PatternEnv) (c : URLChecker) (rawURL : String) :
    Bool × String × String :=
  if rawURL = "" ∨ goLen rawURL > maxURLLength then (false, "", "")
  else matchCategories (compileRegexes env c) rawURL

/-- URLChecker.IsSuspicious (checker.go lines 113-151): identical cascade
but only the empty string is rejected up front - there is no
maximum-length guard in this variant. -/
def checkerIsSuspicious (env : PatternEnv) (c : URLChecker) (rawURL : String) :
    Bool × String × String :=
  if rawURL = "" then (false, "", "")
  else matchCategories (compileRegexes env c) rawURL

/-- True for ASCII control characters (model of Go containsCTLByte). -/
def ctlChar (c : Char) : Bool := c.toNat < 32 || c.toNat == 127

/-- Model of the external Go net/url.Parse succeeding.  Parse fails on
the inputs this program can meet exactly when the URL contains a control
character or starts with a colon before any scheme character
("missing protocol scheme", e.g. "://invalid-url"). -/
def urlParseOk (s : String) : Bool :=
  !(s.data.any ctlChar) && !(strStarts ":" s)

/-- isValidURL (main.go lines 96-111): length window, parse check, then
scheme prefix or a dot. -/
def isValidURL (rawURL : String) : Bool :=
  if goLen rawURL = 0 ∨ goLen rawURL > maxURLLength then false
  else if urlParseOk rawURL = false then false
  else strStarts "http://" rawURL || strStarts "https://" rawURL ||
    strStarts "ftp://" rawURL || containsL ['.'] rawURL.data

/-- IsValidURL (checker.go lines 154-170): same checks except that only
emptiness is tested - no maximum-length guard in this variant. -/
def checkerIsValidURL (rawURL : String) : Bool :=
  if goLen rawURL = 0 then false
  else if urlParseOk rawURL = false then false
  else strStarts "http://" rawURL || strStarts "https://" rawURL ||
    strStarts "ftp://" rawURL || containsL ['.'] rawURL.data

/-- Result (main.go lines 60-64, internal/types): a scan result. -/
structure Result where
  URL : String
  Category : String
  Reason : String
deriving DecidableEq

/-- removeDuplicates loop (main.go lines 634-646) with the seen map
modelled as the list of URLs inserted so far (membership is all the Go
code reads from the map). -/
def removeDupGo (seen : List String) : List Result → List Result
  | [] => []
  | r :: rest =>
    if r.URL ∈ seen then removeDupGo seen rest
    else r :: removeDupGo (r.URL :: seen) rest

/-- removeDuplicates (main.go lines 634-646). -/
def removeDuplicates (results : List Result) : List Result :=
  removeDupGo [] results

/-- True when Go strings.TrimSpace(s) is empty: every character is
white space (Go unicode.IsSpace on the relevant code points). -/
def isSpaceChar (c : Char) : Bool :=
  c == ' ' || c == '\t' || c == '\n' || c == '\r' ||
  c.toNat == 11 || c.toNat == 12 || c.toNat == 133 || c.toNat == 160

/-- strings.TrimSpace(rawURL) == "" test of the worker (main.go 230). -/
def isBlank (s : String) : Bool := s.data.all isSpaceChar

/-- The per-worker local statistics (main.go worker, lines 207-209),
extended with a cleanCount ghost counter for the URLs that were
classified and found clean - the quantity the spec calls
valid-but-clean, which the Go struct does not store explicitly. -/
structure WorkerStats where
  suspiciousCount : Nat
  invalidCount : Nat
  processedCount : Nat
  skippedCount : Nat
  cleanCount : Nat
deriving DecidableEq

/-- All-zero statistics. -/
def initialStats : WorkerStats := ⟨0, 0, 0, 0, 0⟩

/-- One iteration of the worker loop on one URL (main.go lines 229-254):
blank lines are skipped; with validation on, invalid URLs count as
invalid and processed; suspicious URLs count as suspicious and
processed; everything else counts as processed (and clean). -/
def workerStep (env : PatternEnv) (c : URLChecker) (validateURLs : Bool)
    (st : WorkerStats) (rawURL : String) : WorkerStats :=
  if isBlank rawURL then { st with skippedCount := st.skippedCount + 1 }
  else if validateURLs && !(isValidURL rawURL) then
    { st with invalidCount := st.invalidCount + 1
              processedCount := st.processedCount + 1 }
  else if (isSuspicious env c rawURL).1 then
    { st with suspiciousCount := st.suspiciousCount + 1
              processedCount := st.processedCount + 1 }
  else
    { st with processedCount := st.processedCount + 1
              cleanCount := st.cleanCount + 1 }

/-- The statistics accumulated by the worker loop over a URL list
(main.go worker; UpdateStats merely adds the local deltas into the
shared Stats, so the aggregate equals this fold). -/
def runWorker (env : PatternEnv) (c : URLChecker) (validateURLs : Bool)
    (urls : List String) : WorkerStats :=
  urls.foldl (workerStep env c validateURLs) initialStats

/-- The results emitted by the worker loop over a URL list (main.go
lines 241-253): one Result per suspicious URL. -/
def workerResults (env : PatternEnv) (c : URLChecker) (validateURLs : Bool)
    (urls : List String) : List Result :=
  urls.filterMap fun u =>
    if isBlank u then none
    else if validateURLs && !(isValidURL u) then none
    else
      let r := isSuspicious env c u
      if r.1 then some ⟨u, r.2.1, r.2.2⟩ else none

/-- The context error values relevant to the run (Go context package):
context.DeadlineExceeded on timeout, context.Canceled on abort. -/
inductive CtxErr
  | deadlineExceeded
  | canceled
deriving DecidableEq

/-- processURLs under a deadline, with the deadline modelled as the
number of URLs the workers manage to consume before the context
expires.  Like Go processURLs, which returns ([]Result, *Stats, error),
it returns the results drained from the results channel, the statistics
the workers flushed (workers flush their local deltas on exit, main.go
lines 216-217 and 225), and ctx.Err() (main.go line 375). -/
def processURLsTimed (env : PatternEnv) (c : URLChecker) (validateURLs : Bool)
    (fuel : Nat) (urls : List String) :
    List Result × WorkerStats × Option CtxErr :=
  if urls.length ≤ fuel then
    (workerResults env c validateURLs urls, runWorker env c validateURLs urls, none)
  else
    (workerResults env c validateURLs (urls.take fuel),
     runWorker env c validateURLs (urls.take fuel),
     some CtxErr.deadlineExceeded)

/-- The error dispatch of processFile (main.go lines 506-518): any error
other than context.DeadlineExceeded is returned as a failure before
anything is delivered; otherwise processFile goes on to deduplicate the
collected results, print the collected statistics (printStats, verbose
mode) and hand the results to writeResults - i.e. both the results and
the statistics are delivered to the output side. -/
def processFileDispatch (err : Option CtxErr) (results : List Result)
    (stats : WorkerStats) : Except CtxErr (List Result × WorkerStats) :=
  match err with
  | some e =>
    if e = CtxErr.deadlineExceeded then
      Except.ok (removeDuplicates results, stats)
    else Except.error e
  | none => Except.ok (removeDuplicates results, stats)

/-- processFile run outcome under a deadline (main.go lines 506-518). -/
def processFileOutcome (env : PatternEnv) (c : URLChecker) (validateURLs : Bool)
    (fuel : Nat) (urls : List String) : Except CtxErr (List Result × WorkerStats) :=
  processFileDispatch (processURLsTimed env c validateURLs fuel urls).2.2
    (processURLsTimed env c validateURLs fuel urls).1
    (processURLsTimed env c validateURLs fuel urls).2.1

/-- Effective worker count of processURLs (main.go lines 278-289):
configured count, or NumCPU when unset or nonpositive, capped at
maxWorkers, then reduced by min with len(urls)/10+1 for small inputs. -/
def effectiveWorkers (configured numCPU : Int) (nURLs : Nat) : Int :=
  let w0 := if configured ≤ 0 then numCPU else configured
  let w1 := if w0 > maxWorkersConst then maxWorkersConst else w0
  if nURLs < 1000 then min w1 ((nURLs : Int) / 10 + 1) else w1

/-- Spec-side definition, following the claim text for category
precedence: the result is determined by the first of keywords,
extensions, paths, hidden - in that order, restricted to the enabled
categories - whose pattern list matches the URL. -/
def specCategoryOrder (env : PatternEnv) (c : URLChecker) (url : String) :
    Bool × String × String :=
  if c.checkKeywords && env.keywords.any (fun p => ciContains p url) then
    (true, "keywords", "Contains suspicious keyword")
  else if c.checkExtensions && env.extensions.any (fun p => ciEndsWith p url) then
    (true, "extensions", "Suspicious file extension")
  else if c.checkPaths && env.paths.any (fun p => ciContains p url) then
    (true, "paths", "Suspicious path pattern")
  else if c.checkHidden && env.hidden.any (fun p => ciContains p url) then
    (true, "hidden", "Hidden file or directory")
  else (false, "", "")

/-! Concrete fixtures used by witnesses and counterexamples.  The
pattern environment is the deterministic one the repository test file
installs (Keywords = [badword], Extensions = [.exe], Paths = [/evil],
Hidden = [.git]). -/

/-- Test pattern environment (from TestURLCheckerIsSuspicious). -/
def envX : PatternEnv := ⟨["badword"], [".exe"], ["/evil"], [".git"]⟩

/-- Checker with all categories on and no exclusions (the default
configuration built in main, lines 701-706). -/
def cAll : URLChecker := ⟨true, true, true, true, []⟩

/-- Checker with all categories on and exclusion pattern safe.com
(the configuration of TestURLCheckerIsSuspicious). -/
def cEx : URLChecker := ⟨true, true, true, true, ["safe.com"]⟩

/-- Checker with the extensions category disabled. -/
def cNoExt : URLChecker := ⟨true, false, true, true, []⟩

/-- An overlong URL (7 + 680 * 3 + 4 = 2051 bytes) that contains the
keyword badword and ends in the extension .exe. -/
def urlX : String := String.mk ("badword".data ++ List.replicate 680 '語' ++ ".exe".data)

/-- An overlong URL (7 + 681 * 3 = 2050 bytes) starting with the keyword
badword. -/
def urlY : String := String.mk ("badword".data ++ List.replicate 681 '語')

/-- An overlong (7 + 681 * 3 = 2050 bytes) but otherwise well-formed
http URL. -/
def urlZ : String := String.mk ("http://".data ++ List.replicate 681 '語')

/-- An overlong URL of 683 * 3 = 2049 bytes. -/
def urlW4 : String := String.mk (List.replicate 683 '語')

/-- The duplicate-bearing result list of TestRemoveDuplicates. -/
def rsW : List Result := [⟨"a", "k", ""⟩, ⟨"b", "k", ""⟩, ⟨"a", "k", ""⟩, ⟨"c", "k", ""⟩]

/-- A two-URL input for the timeout witness. -/
def urls2 : List String := ["http://x.com/.git", "http://y.com"]

/-! Helper lemmas. -/

/-- A category list compiled under a flag matches iff the flag is on and
the list matches. -/
lemma any_if_nil {α : Type} (b : Bool) (l : List α) (f : α → Bool) :
    (if b = true then l else []).any f = (b && l.any f) := by
  cases b <;> simp

/-- Once the exclusion patterns are known not to match, the compiled
cascade is exactly the first-enabled-category-wins cascade. -/
lemma matchCategories_compile (env : PatternEnv) (c : URLChecker) (url : String)
    (hexcl : c.excludePatterns.any (fun p => ciContains p url) = false) :
    matchCategories (compileRegexes env c) url = specCategoryOrder env c url := by
  unfold matchCategories compileRegexes specCategoryOrder
  simp only [any_if_nil, hexcl, Bool.false_eq_true, if_false]

/-! C1 -/

/-- C1: any URL matching at least one compiled exclusion pattern is
classified not-matched (false, empty category, empty reason) by both
main.go isSuspicious and checker.go IsSuspicious, whatever the enabled
categories and whatever other patterns the URL matches. -/
theorem exclusion_always_wins (env : PatternEnv) (c : URLChecker) (url p : String)
    (hp : p ∈ c.excludePatterns) (hm : ciContains p url = true) :
    isSuspicious env c url = (false, "", "") ∧
    checkerIsSuspicious env c url = (false, "", "") := by
  have hex : c.excludePatterns.any (fun q => ciContains q url) = true :=
    List.any_eq_true.mpr ⟨p, hp, hm⟩
  have hmc : matchCategories (compileRegexes env c) url = (false, "", "") := by
    unfold matchCategories compileRegexes
    simp only [hex, if_true]
  constructor
  · unfold isSuspicious
    split
    · rfl
    · exact hmc
  · unfold checkerIsSuspicious
    split
    · rfl
    · exact hmc

/-- C1 witness: the exclusion pattern safe.com suppresses the keyword
match in http://safe.com/badword for both classifier variants. -/
theorem exclusion_always_wins_inst :
    isSuspicious envX cEx "http://safe.com/badword" = (false, "", "") ∧
    checkerIsSuspicious envX cEx "http://safe.com/badword" = (false, "", "") :=
  exclusion_always_wins envX cEx "http://safe.com/badword" "safe.com"
    (by decide) (by decide)

/-! C2 -/

/-- C2 (amended): for every nonempty URL within the maximum byte length
that matches no exclusion pattern, both classifier variants return the
result of the first of keywords, extensions, paths, hidden - in that
order, restricted to enabled categories - whose pattern list matches. -/
theorem category_precedence (env : PatternEnv) (c : URLChecker) (url : String)
    (hne : url ≠ "") (hlen : goLen url ≤ maxURLLength)
    (hexcl : c.excludePatterns.any (fun p => ciContains p url) = false) :
    isSuspicious env c url = specCategoryOrder env c url ∧
    checkerIsSuspicious env c url = specCategoryOrder env c url := by
  have hmc := matchCategories_compile env c url hexcl
  constructor
  · unfold isSuspicious
    rw [if_neg]
    · exact hmc
    · rintro (h | h)
      · exact hne h
      · exact absurd h (not_lt.mpr hlen)
  · unfold checkerIsSuspicious
    rw [if_neg hne]
    exact hmc

/-- C2 counterexample: urlX matches the enabled keywords pattern badword
and the enabled extensions pattern .exe and matches no exclusion
pattern, yet isSuspicious does not report it under keywords - the URL is
over the length limit so the claim as stated fails on it. -/
theorem category_precedence_cex :
    cAll.checkKeywords = true ∧ cAll.checkExtensions = true ∧
    ("badword" ∈ envX.keywords) ∧ (".exe" ∈ envX.extensions) ∧
    ciContains "badword" urlX = true ∧ ciEndsWith ".exe" urlX = true ∧
    cAll.excludePatterns.any (fun p => ciContains p urlX) = false ∧
    isSuspicious envX cAll urlX ≠ (true, "keywords", "Contains suspicious keyword") := by
  exact ⟨rfl, rfl, by decide, by decide, by decide, by decide, rfl, by decide⟩

/-- C2 witness: precedence instance on a keyword-bearing URL within the
length limit. -/
theorem category_precedence_inst :
    ("http://example.com/badword" ≠ "") ∧
    goLen "http://example.com/badword" ≤ maxURLLength ∧
    cAll.excludePatterns.any (fun p => ciContains p "http://example.com/badword") = false ∧
    isSuspicious envX cAll "http://example.com/badword"
      = specCategoryOrder envX cAll "http://example.com/badword" ∧
    checkerIsSuspicious envX cAll "http://example.com/badword"
      = specCategoryOrder envX cAll "http://example.com/badword" := by
  refine ⟨by decide, by decide, rfl, ?_, ?_⟩
  · exact (category_precedence envX cAll "http://example.com/badword"
      (by decide) (by decide) rfl).1
  · exact (category_precedence envX cAll "http://example.com/badword"
      (by decide) (by decide) rfl).2

/-! C5 -/

/-- C5 (amended): main.go isSuspicious classifies every URL over the
maximum byte length as not-matched; the checker.go variant has no such
guard (see the counterexample). -/
theorem overlong_never_matched (env : PatternEnv) (c : URLChecker) (url : String)
    (h : goLen url > maxURLLength) :
    isSuspicious env c url = (false, "", "") := by
  unfold isSuspicious
  rw [if_pos (Or.inr h)]

/-- C5 witness: the overlong urlY is rejected by main.go isSuspicious. -/
theorem overlong_never_matched_inst :
    goLen urlY > maxURLLength ∧ isSuspicious envX cAll urlY = (false, "", "") :=
  ⟨by decide, overlong_never_matched envX cAll urlY (by decide)⟩

/-- C5 counterexample: the overlong urlY is reported as suspicious under
keywords by checker.go IsSuspicious, which performs no length check. -/
theorem overlong_matched_by_checker_cex :
    goLen urlY > maxURLLength ∧
    checkerIsSuspicious envX cAll urlY = (true, "keywords", "Contains suspicious keyword") :=
  ⟨by decide, by decide⟩

/-! C4 -/

/-- C4 (amended): the concrete validity cases hold for both main.go
isValidURL and checker.go IsValidURL, and every URL over the maximum
byte length is invalid for main.go isValidURL; checker.go IsValidURL
performs no length check (see the counterexample). -/
theorem valid_url_spec :
    isValidURL "http://example.com" = true ∧
    isValidURL "no-scheme.com" = true ∧
    isValidURL "justtext" = false ∧
    isValidURL "" = false ∧
    checkerIsValidURL "http://example.com" = true ∧
    checkerIsValidURL "no-scheme.com" = true ∧
    checkerIsValidURL "justtext" = false ∧
    checkerIsValidURL "" = false ∧
    ∀ s : String, goLen s > maxURLLength → isValidURL s = false := by
  refine ⟨by decide, by decide, by decide, by decide, by decide, by decide,
    by decide, by decide, ?_⟩
  intro s hs
  unfold isValidURL
  rw [if_pos (Or.inr hs)]

/-- C4 witness: the 2049-byte urlW4 is rejected by main.go isValidURL. -/
theorem valid_url_spec_inst :
    goLen urlW4 > maxURLLength ∧ isValidURL urlW4 = false :=
  ⟨by decide, valid_url_spec.2.2.2.2.2.2.2.2 urlW4 (by decide)⟩

/-- C4 counterexample: the overlong urlZ is accepted as valid by
checker.go IsValidURL, which has no maximum-length guard. -/
theorem checker_valid_overlong_cex :
    goLen urlZ > maxURLLength ∧ checkerIsValidURL urlZ = true :=
  ⟨by decide, by decide⟩

/-! C6 -/

/-- The compiled cascade only ever labels a result with a category whose
flag was set at construction. -/
lemma compiled_cat_enabled (env : PatternEnv) (c : URLChecker) (url : String) :
    (matchCategories (compileRegexes env c) url).2.1 = "" ∨
    ((matchCategories (compileRegexes env c) url).2.1 = "keywords" ∧ c.checkKeywords = true) ∨
    ((matchCategories (compileRegexes env c) url).2.1 = "extensions" ∧ c.checkExtensions = true) ∨
    ((matchCategories (compileRegexes env c) url).2.1 = "paths" ∧ c.checkPaths = true) ∨
    ((matchCategories (compileRegexes env c) url).2.1 = "hidden" ∧ c.checkHidden = true) := by
  unfold matchCategories compileRegexes
  simp only [any_if_nil]
  split
  · exact Or.inl rfl
  split
  next h =>
    rw [Bool.and_eq_true] at h
    exact Or.inr (Or.inl ⟨rfl, h.1⟩)
  split
  next h =>
    rw [Bool.and_eq_true] at h
    exact Or.inr (Or.inr (Or.inl ⟨rfl, h.1⟩))
  split
  next h =>
    rw [Bool.and_eq_true] at h
    exact Or.inr (Or.inr (Or.inr (Or.inl ⟨rfl, h.1⟩)))
  split
  next h =>
    rw [Bool.and_eq_true] at h
    exact Or.inr (Or.inr (Or.inr (Or.inr ⟨rfl, h.1⟩)))
  exact Or.inl rfl

/-- C6: for every configuration and input URL, the category label
returned by either classifier variant is empty or names a category that
was enabled at construction - a disabled category never labels a
result. -/
theorem disabled_category_never_labeled (env : PatternEnv) (c : URLChecker) (url : String) :
    ((isSuspicious env c url).2.1 = "" ∨
      ((isSuspicious env c url).2.1 = "keywords" ∧ c.checkKeywords = true) ∨
      ((isSuspicious env c url).2.1 = "extensions" ∧ c.checkExtensions = true) ∨
      ((isSuspicious env c url).2.1 = "paths" ∧ c.checkPaths = true) ∨
      ((isSuspicious env c url).2.1 = "hidden" ∧ c.checkHidden = true)) ∧
    ((checkerIsSuspicious env c url).2.1 = "" ∨
      ((checkerIsSuspicious env c url).2.1 = "keywords" ∧ c.checkKeywords = true) ∨
      ((checkerIsSuspicious env c url).2.1 = "extensions" ∧ c.checkExtensions = true) ∨
      ((checkerIsSuspicious env c url).2.1 = "paths" ∧ c.checkPaths = true) ∨
      ((checkerIsSuspicious env c url).2.1 = "hidden" ∧ c.checkHidden = true)) := by
  constructor
  · unfold isSuspicious
    split
    · exact Or.inl rfl
    · exact compiled_cat_enabled env c url
  · unfold checkerIsSuspicious
    split
    · exact Or.inl rfl
    · exact compiled_cat_enabled env c url

/-- C6 witness: with the extensions category disabled, a URL ending in
the suspicious extension .exe is never labeled extensions. -/
theorem disabled_category_never_labeled_inst :
    (isSuspicious envX cNoExt "http://example.com/file.exe").2.1 ≠ "extensions" := by
  have h := (disabled_category_never_labeled envX cNoExt "http://example.com/file.exe").1
  intro he
  rcases h with h | ⟨h, _⟩ | ⟨_, hflag⟩ | ⟨h, _⟩ | ⟨h, _⟩
  · exact absurd (he.symm.trans h) (by decide)
  · exact absurd (he.symm.trans h) (by decide)
  · exact absurd hflag (by decide)
  · exact absurd (he.symm.trans h) (by decide)
  · exact absurd (he.symm.trans h) (by decide)

/-! C10 -/

/-- The cascade returns one of exactly five concrete triples. -/
lemma matchCategories_cases (cc : CompiledChecker) (url : String) :
    matchCategories cc url = (false, "", "") ∨
    matchCategories cc url = (true, "keywords", "Contains suspicious keyword") ∨
    matchCategories cc url = (true, "extensions", "Suspicious file extension") ∨
    matchCategories cc url = (true, "paths", "Suspicious path pattern") ∨
    matchCategories cc url = (true, "hidden", "Hidden file or directory") := by
  unfold matchCategories
  split
  · exact Or.inl rfl
  split
  · exact Or.inr (Or.inl rfl)
  split
  · exact Or.inr (Or.inr (Or.inl rfl))
  split
  · exact Or.inr (Or.inr (Or.inr (Or.inl rfl)))
  split
  · exact Or.inr (Or.inr (Or.inr (Or.inr rfl)))
  exact Or.inl rfl

/-- main.go isSuspicious returns one of exactly five concrete triples. -/
lemma isSuspicious_cases (env : PatternEnv) (c : URLChecker) (url : String) :
    isSuspicious env c url = (false, "", "") ∨
    isSuspicious env c url = (true, "keywords", "Contains suspicious keyword") ∨
    isSuspicious env c url = (true, "extensions", "Suspicious file extension") ∨
    isSuspicious env c url = (true, "paths", "Suspicious path pattern") ∨
    isSuspicious env c url = (true, "hidden", "Hidden file or directory") := by
  unfold isSuspicious
  split
  · exact Or.inl rfl
  · exact matchCategories_cases _ _

/-- checker.go IsSuspicious returns one of exactly five triples. -/
lemma checkerIsSuspicious_cases (env : PatternEnv) (c : URLChecker) (url : String) :
    checkerIsSuspicious env c url = (false, "", "") ∨
    checkerIsSuspicious env c url = (true, "keywords", "Contains suspicious keyword") ∨
    checkerIsSuspicious env c url = (true, "extensions", "Suspicious file extension") ∨
    checkerIsSuspicious env c url = (true, "paths", "Suspicious path pattern") ∨
    checkerIsSuspicious env c url = (true, "hidden", "Hidden file or directory") := by
  unfold checkerIsSuspicious
  split
  · exact Or.inl rfl
  · exact matchCategories_cases _ _

/-- C10: for both classifier variants, matched is true iff the category
is nonempty, iff the reason is nonempty; a not-matched result carries
empty category and reason; a matched result carries one of the four
category names. -/
theorem result_coupling (env : PatternEnv) (c : URLChecker) (url : String) :
    (((isSuspicious env c url).1 = true ↔ (isSuspicious env c url).2.1 ≠ "") ∧
     ((isSuspicious env c url).1 = true ↔ (isSuspicious env c url).2.2 ≠ "") ∧
     ((isSuspicious env c url).1 = false →
       (isSuspicious env c url).2.1 = "" ∧ (isSuspicious env c url).2.2 = "") ∧
     ((isSuspicious env c url).1 = true →
       (isSuspicious env c url).2.1 ∈ (["keywords", "extensions", "paths", "hidden"] : List String))) ∧
    (((checkerIsSuspicious env c url).1 = true ↔ (checkerIsSuspicious env c url).2.1 ≠ "") ∧
     ((checkerIsSuspicious env c url).1 = true ↔ (checkerIsSuspicious env c url).2.2 ≠ "") ∧
     ((checkerIsSuspicious env c url).1 = false →
       (checkerIsSuspicious env c url).2.1 = "" ∧ (checkerIsSuspicious env c url).2.2 = "") ∧
     ((checkerIsSuspicious env c url).1 = true →
       (checkerIsSuspicious env c url).2.1 ∈ (["keywords", "extensions", "paths", "hidden"] : List String))) := by
  constructor
  · rcases isSuspicious_cases env c url with h | h | h | h | h <;> rw [h] <;> decide
  · rcases checkerIsSuspicious_cases env c url with h | h | h | h | h <;> rw [h] <;> decide

/-- C10 witness: the empty string is not matched and both category and
reason are empty. -/
theorem result_coupling_inst :
    (checkerIsSuspicious envX cAll "").2.1 = "" ∧
    (checkerIsSuspicious envX cAll "").2.2 = "" :=
  (result_coupling envX cAll "").2.2.2.1 (by decide)

/-! C7 -/

/-- The dedup loop output is a sublist of its input (order preserved). -/
lemma removeDupGo_sublist (seen : List String) (l : List Result) :
    List.Sublist (removeDupGo seen l) l := by
  induction l generalizing seen with
  | nil => simp [removeDupGo]
  | cons a rest ih =>
    unfold removeDupGo
    by_cases hm : a.URL ∈ seen
    · rw [if_pos hm]
      exact (ih seen).cons a
    · rw [if_neg hm]
      exact (ih (a.URL :: seen)).cons₂ a

/-- The dedup loop output has pairwise-distinct URLs, none in seen. -/
lemma removeDupGo_nodup (seen : List String) (l : List Result) :
    ((removeDupGo seen l).map Result.URL).Nodup ∧
    ∀ u ∈ (removeDupGo seen l).map Result.URL, u ∉ seen := by
  induction l generalizing seen with
  | nil => simp [removeDupGo]
  | cons a rest ih =>
    unfold removeDupGo
    by_cases hm : a.URL ∈ seen
    · rw [if_pos hm]
      exact ih seen
    · rw [if_neg hm]
      obtain ⟨hn, hnin⟩ := ih (a.URL :: seen)
      refine ⟨?_, ?_⟩
      · simp only [List.map_cons, List.nodup_cons]
        exact ⟨fun hmem => (hnin _ hmem) (List.mem_cons_self _ _), hn⟩
      · intro u hu
        simp only [List.map_cons, List.mem_cons] at hu
        rcases hu with he | hu
        · subst he; exact hm
        · exact fun hseen => (hnin u hu) (List.mem_cons_of_mem _ hseen)

/-- Every input URL not already seen is represented in the output. -/
lemma removeDupGo_covers (seen : List String) (l : List Result) :
    ∀ r ∈ l, r.URL ∉ seen → ∃ r2 ∈ removeDupGo seen l, r2.URL = r.URL := by
  induction l generalizing seen with
  | nil => intro r hr; simp at hr
  | cons a rest ih =>
    intro r hr hnot
    unfold removeDupGo
    by_cases hm : a.URL ∈ seen
    · rw [if_pos hm]
      rcases List.mem_cons.mp hr with he | hr2
      · subst he; exact absurd hm hnot
      · exact ih seen r hr2 hnot
    · rw [if_neg hm]
      rcases List.mem_cons.mp hr with he | hr2
      · exact ⟨a, List.mem_cons_self _ _, (congrArg Result.URL he).symm⟩
      · by_cases h2 : r.URL = a.URL
        · exact ⟨a, List.mem_cons_self _ _, h2.symm⟩
        · obtain ⟨r2, hr2m, he2⟩ := ih (a.URL :: seen) r hr2 (by
            simp only [List.mem_cons]
            rintro (h | h)
            · exact h2 h
            · exact hnot h)
          exact ⟨r2, List.mem_cons_of_mem _ hr2m, he2⟩

/-- Every output element is the first input element carrying its URL. -/
lemma removeDupGo_first (seen : List String) (l : List Result) :
    ∀ r2 ∈ removeDupGo seen l,
      r2.URL ∉ seen ∧ l.find? (fun x => x.URL == r2.URL) = some r2 := by
  induction l generalizing seen with
  | nil => intro r2 h; simp [removeDupGo] at h
  | cons a rest ih =>
    intro r2 hr2
    unfold removeDupGo at hr2
    by_cases hm : a.URL ∈ seen
    · rw [if_pos hm] at hr2
      obtain ⟨hnin, hfind⟩ := ih seen r2 hr2
      have hne : (a.URL == r2.URL) = false := by
        rw [beq_eq_false_iff_ne]
        intro he
        exact hnin (he ▸ hm)
      exact ⟨hnin, by simp [List.find?, hne, hfind]⟩
    · rw [if_neg hm] at hr2
      rcases List.mem_cons.mp hr2 with he | hr3
      · subst he
        refine ⟨hm, ?_⟩
        simp [List.find?]
      · obtain ⟨hnin, hfind⟩ := ih (a.URL :: seen) r2 hr3
        have hnin2 : r2.URL ∉ seen := fun h => hnin (List.mem_cons_of_mem _ h)
        have hne : (a.URL == r2.URL) = false := by
          rw [beq_eq_false_iff_ne]
          intro he
          exact hnin (he ▸ List.mem_cons_self _ _)
        exact ⟨hnin2, by simp [List.find?, hne, hfind]⟩

/-- C7: removeDuplicates maps the documented example to exactly its
deduplication, and in general returns a sublist of the input whose URLs
are pairwise distinct, covering every input URL, each output element
being the first input element with that URL - first occurrence wins, in
first-seen order. -/
theorem removeDuplicates_spec :
    removeDuplicates [⟨"a", "k", ""⟩, ⟨"b", "k", ""⟩, ⟨"a", "k", ""⟩, ⟨"c", "k", ""⟩]
      = [⟨"a", "k", ""⟩, ⟨"b", "k", ""⟩, ⟨"c", "k", ""⟩] ∧
    ∀ rs : List Result,
      List.Sublist (removeDuplicates rs) rs ∧
      ((removeDuplicates rs).map Result.URL).Nodup ∧
      (∀ r ∈ rs, ∃ r2 ∈ removeDuplicates rs, r2.URL = r.URL) ∧
      (∀ r2 ∈ removeDuplicates rs, rs.find? (fun x => x.URL == r2.URL) = some r2) := by
  refine ⟨by decide, fun rs =>
    ⟨removeDupGo_sublist [] rs, (removeDupGo_nodup [] rs).1, ?_, ?_⟩⟩
  · intro r hr
    exact removeDupGo_covers [] rs r hr (by simp)
  · intro r2 hr2
    exact (removeDupGo_first [] rs r2 hr2).2

/-- C7 witness: in the example list, the element kept for URL a is the
first of the two occurrences. -/
theorem removeDuplicates_spec_inst :
    rsW.find? (fun x => x.URL == "a") = some ⟨"a", "k", ""⟩ :=
  (removeDuplicates_spec.2 rsW).2.2.2 ⟨"a", "k", ""⟩ (by decide)

/-! C3 -/

/-- Each worker-loop iteration consumes exactly one URL: the processed
plus skipped counters grow by one. -/
lemma workerStep_counts (env : PatternEnv) (c : URLChecker) (v : Bool)
    (st : WorkerStats) (u : String) :
    (workerStep env c v st u).processedCount + (workerStep env c v st u).skippedCount
      = st.processedCount + st.skippedCount + 1 := by
  unfold workerStep
  split
  · dsimp only
    omega
  split
  · dsimp only
    omega
  split
  · dsimp only
    omega
  · dsimp only
    omega

/-- Each worker-loop iteration preserves the accounting equation
processed = suspicious + invalid + clean. -/
lemma workerStep_inv (env : PatternEnv) (c : URLChecker) (v : Bool)
    (st : WorkerStats) (u : String)
    (h : st.processedCount = st.suspiciousCount + st.invalidCount + st.cleanCount) :
    (workerStep env c v st u).processedCount
      = (workerStep env c v st u).suspiciousCount
        + (workerStep env c v st u).invalidCount
        + (workerStep env c v st u).cleanCount := by
  unfold workerStep
  split
  · dsimp only
    omega
  split
  · dsimp only
    omega
  split
  · dsimp only
    omega
  · dsimp only
    omega

/-- The worker fold preserves the accounting equation and consumes one
input per processed-or-skipped URL. -/
lemma runWorker_fold_inv (env : PatternEnv) (c : URLChecker) (v : Bool)
    (urls : List String) :
    ∀ st : WorkerStats,
      st.processedCount = st.suspiciousCount + st.invalidCount + st.cleanCount →
      ((urls.foldl (workerStep env c v) st).processedCount
        = (urls.foldl (workerStep env c v) st).suspiciousCount
          + (urls.foldl (workerStep env c v) st).invalidCount
          + (urls.foldl (workerStep env c v) st).cleanCount) ∧
      (urls.foldl (workerStep env c v) st).processedCount
          + (urls.foldl (workerStep env c v) st).skippedCount
        = st.processedCount + st.skippedCount + urls.length := by
  induction urls with
  | nil =>
    intro st h
    simpa using h
  | cons u rest ih =>
    intro st h
    simp only [List.foldl_cons, List.length_cons]
    obtain ⟨h1, h2⟩ := ih (workerStep env c v st u) (workerStep_inv env c v st u h)
    have h3 := workerStep_counts env c v st u
    exact ⟨h1, by omega⟩

/-- C3 (amended): after any prefix of the input - hence at every moment
of the run - the worker statistics satisfy
processed = suspicious + invalid + (valid-but-clean),
suspicious ≤ processed, processed + skipped = URLs consumed so far, and
processed never exceeds the total number of input URLs. -/
theorem stats_invariant (env : PatternEnv) (c : URLChecker) (v : Bool)
    (urls : List String) (n : Nat) :
    (runWorker env c v (urls.take n)).processedCount
      = (runWorker env c v (urls.take n)).suspiciousCount
        + (runWorker env c v (urls.take n)).invalidCount
        + (runWorker env c v (urls.take n)).cleanCount ∧
    (runWorker env c v (urls.take n)).suspiciousCount
      ≤ (runWorker env c v (urls.take n)).processedCount ∧
    (runWorker env c v (urls.take n)).processedCount
      + (runWorker env c v (urls.take n)).skippedCount = (urls.take n).length ∧
    (runWorker env c v (urls.take n)).processedCount ≤ urls.length := by
  obtain ⟨h1, h2⟩ := runWorker_fold_inv env c v (urls.take n) initialStats rfl
  have e1 : initialStats.processedCount = 0 := rfl
  have e2 : initialStats.skippedCount = 0 := rfl
  have hlen : (urls.take n).length ≤ urls.length := by
    rw [List.length_take]
    exact min_le_right _ _
  unfold runWorker
  refine ⟨h1, by omega, by omega, by omega⟩

/-- C3 counterexample: a run over the single URL justtext with
validation on ends with processed = 1 but suspicious = 0 and
valid-but-clean = 0 (the URL is invalid), so the claimed equation
processed = suspicious + (valid-but-clean) fails. -/
theorem stats_claim_cex :
    ¬ ((runWorker envX cAll true ["justtext"]).processedCount
        = (runWorker envX cAll true ["justtext"]).suspiciousCount
          + (runWorker envX cAll true ["justtext"]).cleanCount) := by
  decide

/-! C8 -/

/-- C8: when the deadline expires mid-run (fuel smaller than the input),
processFile still delivers, as a success, both the deduplicated partial
results and the partial statistics collected before the deadline
(neither is discarded), while any other context error (for example
cancellation) surfaces as a distinguishable failure carrying neither. -/
theorem timeout_keeps_results (env : PatternEnv) (c : URLChecker) (v : Bool)
    (fuel : Nat) (urls : List String) (h : fuel < urls.length) :
    processFileOutcome env c v fuel urls
      = Except.ok (removeDuplicates (workerResults env c v (urls.take fuel)),
                   runWorker env c v (urls.take fuel)) ∧
    processFileDispatch (some CtxErr.canceled)
        (workerResults env c v (urls.take fuel)) (runWorker env c v (urls.take fuel))
      = Except.error CtxErr.canceled := by
  constructor
  · have hpt : processURLsTimed env c v fuel urls
        = (workerResults env c v (urls.take fuel),
           runWorker env c v (urls.take fuel), some CtxErr.deadlineExceeded) := by
      unfold processURLsTimed
      rw [if_neg (Nat.not_le.mpr h)]
    unfold processFileOutcome
    rw [hpt]
    rfl
  · rfl

/-- C8 witness: with a two-URL input and a deadline after one URL, the
run returns ok with the deduplicated partial results and the partial
statistics of the consumed prefix. -/
theorem timeout_keeps_results_inst :
    (1 < urls2.length) ∧
    processFileOutcome envX cAll false 1 urls2
      = Except.ok (removeDuplicates (workerResults envX cAll false (urls2.take 1)),
                   runWorker envX cAll false (urls2.take 1)) :=
  ⟨by decide, (timeout_keeps_results envX cAll false 1 urls2 (by decide)).1⟩

/-! C9 -/

/-- C9: for inputs of fewer than 1000 URLs the effective worker count is
at most len(urls)/10 + 1, whatever the configured worker count and CPU
count. -/
theorem small_input_worker_bound (configured numCPU : Int) (nURLs : Nat)
    (h : nURLs < 1000) :
    effectiveWorkers configured numCPU nURLs ≤ (nURLs : Int) / 10 + 1 := by
  unfold effectiveWorkers
  rw [if_pos h]
  exact min_le_right _ _

/-- C9 witness: with 8 configured workers, 4 CPUs and 5 URLs, the
effective worker count is at most 5/10 + 1 = 1. -/
theorem small_input_worker_bound_inst :
    (5 < 1000) ∧ effectiveWorkers 8 4 5 ≤ ((5 : Nat) : Int) / 10 + 1 :=
  ⟨by decide, small_input_worker_bound 8 4 5 (by decide)⟩

end JuicyURLs
